import Mathlib

/-!
Verification of the `VortexTrack` core of the StormEvents repository
(`stormevents/nhc/track.py`) against its natural-language design document.

The embedding below translates the track aggregate's data model and the
operations under scrutiny into Lean:

* a `Row` is one fix of the record table (one pandas row), with timestamps
  as integers (seconds), positions as rationals, and fallible/unset numeric
  fields as `Option`;
* the ellipsoidal geodesic service (pyproj `Geod(ellps='WGS84')`) is an
  external collaborator and is abstracted as a function parameter
  (`Geodesic`), exactly as the design document scopes it;
* shapely geometry construction is abstracted as an inductive term algebra
  (`Geom`), keeping the union / convex-hull structure of the source;
* stateful property reads (`dataframe`, the velocity recomputation and its
  location-hash guard) are modelled as explicit state transformers.
-/

/-- One fix (row) of the decoded ATCF record table.  Fields not needed by
any verified property are omitted; unset numeric fields are `Option`. -/
structure Row where
  basin : String := "AL"
  stormNumber : Int := 1
  t : Int
  record_type : String := "BEST"
  lat : ℚ := 0
  lon : ℚ := 0
  speed : Option ℚ := none
  direction : Option ℚ := none
  central_pressure : Option Int := none
  background_pressure : Option Int := none
  isotach : Int := 0
  name : String := ""
deriving DecidableEq

/-- Timestamps of the unfiltered table (`self.dataframe['datetime']`). -/
def tableDates (df : List Row) : List Int :=
  df.map (fun r => r.t)

/-- `VortexTrack.__file_end_date`: `numpy.unique` sorts and deduplicates the
table's timestamps, and the loop returns the first one at or after the
requested end date (`none` if no timestamp is at or after it). -/
def fileEndDate (df : List Row) (endDate : Int) : Option Int :=
  (((tableDates df).mergeSort (fun a b => decide (a ≤ b))).dedup).find?
    (fun d => decide (endDate ≤ d))

/-- `VortexTrack.data` with both dates set: the start mask keeps rows with
`start_date <= datetime`, and the end mask compares against
`__file_end_date` (`none` models the pandas failure when no snap date
exists, which cannot happen for an in-bounds end date). -/
def dataView (df : List Row) (s e : Int) : Option (List Row) :=
  (fileEndDate df e).map (fun snap =>
    df.filter (fun r => decide (s ≤ r.t) && decide (r.t ≤ snap)))

/-- On a list sorted by `≤`, `find?` of `e ≤ ·` returns a least element at
or after `e`. -/
theorem sorted_find_least {l : List Int} {e d : Int}
    (hs : List.Pairwise (fun a b : Int => a ≤ b) l)
    (h : l.find? (fun x => decide (e ≤ x)) = some d) :
    d ∈ l ∧ e ≤ d ∧ ∀ x ∈ l, e ≤ x → d ≤ x := by
  induction l with
  | nil => simp at h
  | cons a l ih =>
    rw [List.pairwise_cons] at hs
    by_cases ha : e ≤ a
    · rw [List.find?_cons_of_pos _ (by simpa using ha)] at h
      cases h
      refine ⟨List.mem_cons_self _ _, ha, ?_⟩
      intro x hx _
      rcases List.mem_cons.mp hx with hx | hx
      · exact hx ▸ le_refl _
      · exact hs.1 x hx
    · rw [List.find?_cons_of_neg _ (by simpa using ha)] at h
      obtain ⟨hd, hed, hleast⟩ := ih hs.2 h
      refine ⟨List.mem_cons_of_mem _ hd, hed, ?_⟩
      intro x hx hex
      rcases List.mem_cons.mp hx with hx | hx
      · exact absurd (hx ▸ hex) ha
      · exact hleast x hx hex

/-- The sorted deduplicated date list of `__file_end_date` is sorted. -/
theorem uniqueDates_sorted (df : List Row) :
    List.Pairwise (fun a b : Int => a ≤ b)
      (((tableDates df).mergeSort (fun a b => decide (a ≤ b))).dedup) := by
  have h1 :
      List.Pairwise (fun a b : Int => (decide (a ≤ b)) = true)
        ((tableDates df).mergeSort (fun a b => decide (a ≤ b))) :=
    List.sorted_mergeSort
      (by intro a b c hab hbc; simp only [decide_eq_true_eq] at *; omega)
      (by intro a b; simp only [Bool.or_eq_true, decide_eq_true_eq]; omega)
      (tableDates df)
  have h2 : List.Pairwise (fun a b : Int => a ≤ b)
      ((tableDates df).mergeSort (fun a b => decide (a ≤ b))) := by
    simpa using h1
  exact List.Pairwise.sublist (List.dedup_sublist _) h2

/-- Membership in the sorted deduplicated date list is membership among the
table's timestamps. -/
theorem mem_uniqueDates (df : List Row) (x : Int) :
    x ∈ ((tableDates df).mergeSort (fun a b => decide (a ≤ b))).dedup ↔
      x ∈ tableDates df := by
  rw [List.mem_dedup, List.mem_mergeSort]

/-- C1: for a filter window whose end lies at or before some table
timestamp, `data` returns exactly the rows with `s ≤ t ≤ snap e`, where
`snap e` (the value of `__file_end_date`) is the smallest timestamp present
in the unfiltered table at or after `e`. -/
theorem c1_data_window_snap (df : List Row) (s e : Int)
    (hex : ∃ r ∈ df, e ≤ r.t) :
    ∃ snap, fileEndDate df e = some snap ∧
      snap ∈ tableDates df ∧ e ≤ snap ∧
      (∀ t ∈ tableDates df, e ≤ t → snap ≤ t) ∧
      dataView df s e =
        some (df.filter (fun r => decide (s ≤ r.t) && decide (r.t ≤ snap))) ∧
      ∀ r, r ∈ df.filter (fun r => decide (s ≤ r.t) && decide (r.t ≤ snap)) ↔
        r ∈ df ∧ s ≤ r.t ∧ r.t ≤ snap := by
  obtain ⟨r0, hr0, her0⟩ := hex
  have hmem : r0.t ∈ ((tableDates df).mergeSort (fun a b => decide (a ≤ b))).dedup := by
    rw [mem_uniqueDates]
    exact List.mem_map.mpr ⟨r0, hr0, rfl⟩
  have hsome :
      ((((tableDates df).mergeSort (fun a b => decide (a ≤ b))).dedup).find?
        (fun d => decide (e ≤ d))).isSome :=
    List.find?_isSome.mpr ⟨r0.t, hmem, by simpa using her0⟩
  obtain ⟨snap, hsnap⟩ := Option.isSome_iff_exists.mp hsome
  have hsnap' : fileEndDate df e = some snap := hsnap
  obtain ⟨hsm, hse, hleast⟩ := sorted_find_least (uniqueDates_sorted df) hsnap
  refine ⟨snap, hsnap', (mem_uniqueDates df snap).mp hsm, hse, ?_, ?_, ?_⟩
  · intro t ht het
    exact hleast t ((mem_uniqueDates df t).mpr ht) het
  · simp [dataView, hsnap']
  · intro r
    rw [List.mem_filter]
    simp

/-- Python `iloc[index - 1]`: for the first row the index `-1` wraps to the
last row of the view. -/
def prevIndex (n i : Nat) : Nat :=
  if i = 0 then n - 1 else i - 1

/-- Background pressure after the serializer's substitution step
(source: `if record['background_pressure'] is None: ... iloc[index - 1]`). -/
def bgAfterSubst (rows : List Row) (i : Nat) : Option Int :=
  match rows[i]? with
  | none => none
  | some r =>
    match r.background_pressure with
    | some b => some b
    | none => (rows[prevIndex rows.length i]?).bind (fun p => p.background_pressure)

/-- The background-pressure field emitted by `VortexTrack.__str__` for row
`i` (source lines 210-232).  A comparison against a missing value (which
would fail at runtime in the source) is modelled as `none`. -/
def emittedBg (rows : List Row) (i : Nat) : Option Int :=
  match rows[i]? with
  | none => none
  | some r =>
    match bgAfterSubst rows i with
    | none => none
    | some b =>
      match r.central_pressure with
      | some cp =>
        if b ≤ cp ∧ cp < 1013 then some 1013
        else if b ≤ cp ∧ 1013 ≤ cp then some (cp + 1)
        else some b
      | none => some b

/-- The background-pressure correction rule as worded by the design
document: substitute the previous row's value when unset, then compare
against the central pressure. -/
def specBgRule (prevBg rowBg cp : Option Int) : Option Int :=
  let bg := match rowBg with
    | none => prevBg
    | some b => some b
  match bg, cp with
  | some b, some c =>
    if b ≤ c then (if c < 1013 then some 1013 else some (c + 1)) else some b
  | bg2, _ => bg2

/-- Concrete serializer row for the documented 1016 example: central
pressure 1015 hPa, background pressure 1010 hPa. -/
def exampleRow1016 : Row :=
  { t := 0, central_pressure := some 1015, background_pressure := some 1010 }

/-- C2: for every row after the first, the emitted background pressure is
exactly the documented substitute-then-correct rule applied to the row's
background/central pressures and the previous row's background pressure;
and the documented example (central 1015, background 1010) emits 1016. -/
theorem c2_background_pressure_rule :
    (∀ (rows : List Row) (i : Nat), 1 ≤ i → i < rows.length →
      emittedBg rows i =
        specBgRule ((rows[i - 1]?).bind (fun p => p.background_pressure))
          ((rows[i]?).bind (fun r => r.background_pressure))
          ((rows[i]?).bind (fun r => r.central_pressure))) ∧
    emittedBg [exampleRow1016] 0 = some 1016 := by
  constructor
  · intro rows i hi hlen
    have hr : rows[i]? = some rows[i] := List.getElem?_eq_getElem hlen
    have hprev : prevIndex rows.length i = i - 1 := by
      unfold prevIndex
      rw [if_neg (by omega)]
    simp only [emittedBg, bgAfterSubst, hr, hprev, specBgRule, Option.some_bind]
    cases hbg : rows[i].background_pressure with
    | some b =>
      cases hcp : rows[i].central_pressure with
      | some cp =>
        dsimp only
        split_ifs <;> first | rfl | (exfalso; omega)
      | none => rfl
    | none =>
      cases hpb : (rows[i - 1]?).bind (fun p => p.background_pressure) with
      | some b =>
        cases hcp : rows[i].central_pressure with
        | some cp =>
          dsimp only
          split_ifs <;> first | rfl | (exfalso; omega)
        | none => rfl
      | none => cases hcp : rows[i].central_pressure <;> rfl
  · rfl

/-- Witness for C2: a two-row table where the second row's background
pressure is unset, so the previous row's value 1008 is substituted; the
central pressure 950 then leaves it unchanged (1008 ≤ 950 is false). -/
theorem c2_background_pressure_rule_witness :
    emittedBg
      [{ t := 0, background_pressure := some 1008 },
       { t := 1, central_pressure := some 950 }] 1 =
      specBgRule (some 1008) none (some 950) :=
  c2_background_pressure_rule.1
    [{ t := 0, background_pressure := some 1008 },
     { t := 1, central_pressure := some 950 }] 1
    (by omega) (by simp)

/-- Modelled from the spec: `normalize_atcf_value(x, to_type=int,
round_digits=k)` of the external ATCF module (not under `src/`) rounds the
value and converts it to an integer. -/
def normalize_atcf_int (x : ℚ) : Int :=
  round x

/-- The serialized latitude field of `VortexTrack.__str__` (source lines
180-186): the signed tenths-of-degree integer, then for the southern
hemisphere the emitted magnitude is that integer times `-.1` (as written in
the source).  Returns the emitted magnitude and the hemisphere letter. -/
def serializedLat (lat : ℚ) : ℚ × String :=
  let tenths : Int := normalize_atcf_int (lat / (1 / 10))
  if 0 ≤ tenths then ((tenths : ℚ), "N")
  else ((tenths : ℚ) * (-(1 / 10)), "S")

/-- The serialized longitude field of `VortexTrack.__str__` (source lines
188-194): as for latitude but the western branch multiplies by `-1`. -/
def serializedLon (lon : ℚ) : ℚ × String :=
  let tenths : Int := normalize_atcf_int (lon / (1 / 10))
  if 0 ≤ tenths then ((tenths : ℚ), "E")
  else ((tenths : ℚ) * (-1), "W")

/-- C5: at latitude -25.3° the source emits magnitude 25.3 (it multiplies
the negative tenths value -253 by -0.1 instead of -1), so the emitted
magnitude is not the claimed sign-stripped tenths integer 253; the
longitude branch does emit the claimed 253. -/
theorem c5_latitude_bug :
    serializedLat (-253 / 10) = (253 / 10, "S") ∧
    ((253 : ℚ) / 10) ≠ ((253 : ℚ)) ∧
    serializedLon (-253 / 10) = (253, "W") := by
  have ht : normalize_atcf_int ((-253 / 10 : ℚ) / (1 / 10)) = -253 := by
    unfold normalize_atcf_int
    norm_num [round_eq]
  refine ⟨?_, by norm_num, ?_⟩
  · unfold serializedLat
    rw [ht, if_neg (by norm_num)]
    norm_num
  · unfold serializedLon
    rw [ht, if_neg (by norm_num)]
    norm_num

/-- Helper for `uniqueFirst`: keep each element not seen before, in order. -/
def uniqueFirstAux {α : Type} [DecidableEq α] (seen : List α) : List α → List α
  | [] => []
  | a :: l =>
    if a ∈ seen then uniqueFirstAux seen l
    else a :: uniqueFirstAux (a :: seen) l

/-- `pandas.unique`: the distinct values of a column in order of first
appearance. -/
def uniqueFirst {α : Type} [DecidableEq α] (l : List α) : List α :=
  uniqueFirstAux [] l

/-- Membership in `uniqueFirstAux`. -/
theorem mem_uniqueFirstAux {α : Type} [DecidableEq α] (x : α) :
    ∀ (l seen : List α), x ∈ uniqueFirstAux seen l ↔ (x ∈ l ∧ x ∉ seen) := by
  intro l
  induction l with
  | nil => simp [uniqueFirstAux]
  | cons a l ih =>
    intro seen
    rw [uniqueFirstAux]
    by_cases ha : a ∈ seen
    · rw [if_pos ha, ih seen]
      constructor
      · rintro ⟨h1, h2⟩
        exact ⟨List.mem_cons_of_mem _ h1, h2⟩
      · rintro ⟨h1, h2⟩
        rcases List.mem_cons.mp h1 with h | h
        · exact absurd (h ▸ ha) h2
        · exact ⟨h, h2⟩
    · rw [if_neg ha, List.mem_cons, ih (a :: seen)]
      constructor
      · rintro (h | ⟨h1, h2⟩)
        · exact ⟨h ▸ List.mem_cons_self _ _, h ▸ ha⟩
        · exact ⟨List.mem_cons_of_mem _ h1,
            fun hx => h2 (List.mem_cons_of_mem _ hx)⟩
      · rintro ⟨h1, h2⟩
        by_cases hxa : x = a
        · exact Or.inl hxa
        · rcases List.mem_cons.mp h1 with h | h
          · exact absurd h hxa
          · refine Or.inr ⟨h, fun hx => ?_⟩
            rcases List.mem_cons.mp hx with h2a | h2s
            · exact hxa h2a
            · exact h2 h2s

/-- Membership survives `uniqueFirst`. -/
theorem mem_uniqueFirst {α : Type} [DecidableEq α] (x : α) :
    ∀ l : List α, x ∈ uniqueFirst l ↔ x ∈ l := by
  intro l
  unfold uniqueFirst
  rw [mem_uniqueFirstAux]
  simp

/-- The result of the geodesic inverse problem: forward azimuth, back
azimuth and distance (pyproj `Geod.inv`). -/
structure GeodInv where
  az12 : ℚ
  az21 : ℚ
  dist : ℚ

/-- The abstract WGS84 geodesic inverse solver, taking two `(lon, lat)`
points; the Geodesy Service is an external collaborator. -/
def Geodesic : Type :=
  (ℚ × ℚ) → (ℚ × ℚ) → GeodInv

/-- Python float modulo (`azimuth % 360`), with the divisor's sign. -/
def qmod (x m : ℚ) : ℚ :=
  x - m * ((Int.floor (x / m) : Int) : ℚ)

/-- The representative rows of one record_type cluster: the first-occurring
row for each distinct timestamp, in order of appearance
(`__compute_velocity`, the `indices` list). -/
def clusterReps (cluster : List Row) : List Row :=
  (uniqueFirst (cluster.map (fun r => r.t))).filterMap
    (fun d => cluster.find? (fun r => r.t == d))

/-- One entry of the per-cluster velocity table: the timestamp, the
computed speed (`none` models the NaN arising from the leading NaT
interval of `.diff()`), and the bearing (the geodesic back azimuth reduced
modulo 360). -/
structure VelEntry where
  t : Int
  speed : Option ℚ
  bearing : ℚ

/-- The speed/bearing computed for the pairing of a representative row with
the representative of the preceding distinct timestamp. -/
def pairEntry (geod : Geodesic) (cur prev : Row) (interval : Option ℚ) : VelEntry :=
  let g := geod (cur.lon, cur.lat) (prev.lon, prev.lat)
  { t := cur.t
    speed := interval.map (fun dt => g.dist / dt)
    bearing := qmod g.az21 360 }

/-- The velocity table of one record_type cluster (`__compute_velocity`):
the first representative is paired with itself (`shifted_indices[0] = 0`)
and its interval is the missing first element of `.diff()`; each later
representative is paired with its predecessor with the elapsed time
between them. -/
def clusterTable (geod : Geodesic) (cluster : List Row) : List VelEntry :=
  match clusterReps cluster with
  | [] => []
  | r0 :: rest =>
    pairEntry geod r0 r0 none ::
      (rest.zip (r0 :: rest)).map
        (fun p => pairEntry geod p.1 p.2 (some ((p.1.t : ℚ) - (p.2.t : ℚ))))

/-- The broadcast assignments of `__compute_velocity` (source lines
678-681): every row receives the speed and bearing computed for its
(timestamp, record_type) pair.  In the source these assignments are
performed on the per-cluster boolean-mask selection `record_data`;
`computeVelocitySource` below models which object actually receives
them. -/
def velocityAssign (geod : Geodesic) (rows : List Row) : List Row :=
  rows.map (fun r =>
    match (clusterTable geod
        (rows.filter (fun x => x.record_type == r.record_type))).find?
        (fun e => e.t == r.t) with
    | some e => { r with speed := e.speed, direction := some e.bearing }
    | none => r)

/-- Mapping a timestamp list through `find?`-lookup of first occurrences
recovers the list, provided each date occurs in the cluster. -/
theorem repsAux (ds : List Int) (cluster : List Row)
    (h : ∀ d ∈ ds, ∃ r ∈ cluster, r.t = d) :
    (ds.filterMap (fun d => cluster.find? (fun r => r.t == d))).map
      (fun r => r.t) = ds := by
  induction ds with
  | nil => rfl
  | cons d ds ih =>
    obtain ⟨r, hr, hrt⟩ := h d (List.mem_cons_self _ _)
    have hsome : (cluster.find? (fun r => r.t == d)).isSome :=
      List.find?_isSome.mpr ⟨r, hr, by simp [hrt]⟩
    obtain ⟨r2, hr2⟩ := Option.isSome_iff_exists.mp hsome
    have hr2t : r2.t = d := by
      have := List.find?_some hr2
      simpa using this
    rw [List.filterMap_cons, hr2]
    simp only [List.map_cons, hr2t]
    rw [ih (fun x hx => h x (List.mem_cons_of_mem _ hx))]

/-- The representative rows carry exactly the cluster's distinct
timestamps in order of first appearance. -/
theorem clusterReps_map_t (cluster : List Row) :
    (clusterReps cluster).map (fun r => r.t) =
      uniqueFirst (cluster.map (fun r => r.t)) := by
  unfold clusterReps
  apply repsAux
  intro d hd
  have : d ∈ cluster.map (fun r => r.t) := (mem_uniqueFirst d _).mp hd
  obtain ⟨r, hr, hrt⟩ := List.mem_map.mp this
  exact ⟨r, hr, hrt⟩

/-- The velocity table has one entry per representative, carrying the
representative's timestamp. -/
theorem clusterTable_map_t (geod : Geodesic) (cluster : List Row) :
    (clusterTable geod cluster).map (fun e => e.t) =
      (clusterReps cluster).map (fun r => r.t) := by
  unfold clusterTable
  cases h : clusterReps cluster with
  | nil => rfl
  | cons r0 rest =>
    simp only [List.map_cons, List.map_map, pairEntry]
    congr 1
    have hlen : rest.length ≤ (r0 :: rest).length := by
      simp [Nat.le_succ]
    calc (rest.zip (r0 :: rest)).map
          ((fun e : VelEntry => e.t) ∘ fun p : Row × Row =>
            pairEntry geod p.1 p.2 (some ((p.1.t : ℚ) - (p.2.t : ℚ))))
        = (rest.zip (r0 :: rest)).map ((fun r : Row => r.t) ∘ Prod.fst) := by
          apply List.map_congr_left
          intro p _
          rfl
      _ = ((rest.zip (r0 :: rest)).map Prod.fst).map (fun r : Row => r.t) := by
          rw [List.map_map]
      _ = rest.map (fun r : Row => r.t) := by
          rw [List.map_fst_zip _ _ hlen]

/-- Every row of a cluster finds an entry with its timestamp in the
cluster's velocity table. -/
theorem clusterTable_lookup (geod : Geodesic) (cluster : List Row) (r : Row)
    (hr : r ∈ cluster) :
    ∃ e, (clusterTable geod cluster).find? (fun e => e.t == r.t) = some e ∧
      e.t = r.t := by
  have h1 : r.t ∈ (clusterTable geod cluster).map (fun e => e.t) := by
    rw [clusterTable_map_t, clusterReps_map_t, mem_uniqueFirst]
    exact List.mem_map.mpr ⟨r, hr, rfl⟩
  obtain ⟨e, he, het⟩ := List.mem_map.mp h1
  have hsome : ((clusterTable geod cluster).find? (fun e => e.t == r.t)).isSome :=
    List.find?_isSome.mpr ⟨e, he, by simp [het]⟩
  obtain ⟨e2, he2⟩ := Option.isSome_iff_exists.mp hsome
  refine ⟨e2, he2, ?_⟩
  have := List.find?_some he2
  simpa using this

/-- Structure of the broadcast assignment: any two rows sharing a
timestamp and record_type receive one and the same velocity-table entry,
the one derived from the cluster's representative row for that
timestamp. -/
theorem velocity_cluster_assignment (geod : Geodesic) (rows : List Row)
    (i j : Nat) (ri rj : Row)
    (hi : rows[i]? = some ri) (hj : rows[j]? = some rj)
    (ht : ri.t = rj.t) (hrt : ri.record_type = rj.record_type) :
    ∃ e, (clusterTable geod
        (rows.filter (fun x => x.record_type == ri.record_type))).find?
        (fun e => e.t == ri.t) = some e ∧ e.t = ri.t ∧
      (velocityAssign geod rows)[i]? =
        some { ri with speed := e.speed, direction := some e.bearing } ∧
      (velocityAssign geod rows)[j]? =
        some { rj with speed := e.speed, direction := some e.bearing } := by
  have hmi : ri ∈ rows := by
    have := List.getElem?_eq_some_iff.mp hi
    obtain ⟨h1, h2⟩ := this
    exact h2 ▸ List.getElem_mem h1
  have hcluster : ri ∈ rows.filter (fun x => x.record_type == ri.record_type) :=
    List.mem_filter.mpr ⟨hmi, by simp⟩
  obtain ⟨e, he, het⟩ := clusterTable_lookup geod
    (rows.filter (fun x => x.record_type == ri.record_type)) ri hcluster
  refine ⟨e, he, het, ?_, ?_⟩
  · unfold velocityAssign
    rw [List.getElem?_map, hi]
    simp only [Option.map_some']
    rw [he]
  · unfold velocityAssign
    rw [List.getElem?_map, hj]
    simp only [Option.map_some']
    rw [← hrt, ← ht, he]

/-- Witness table for the velocity claims: one record_type, two rows at the
first timestamp (two quadrants of one ring) and one row six hours later. -/
def velRows : List Row :=
  [{ t := 0, isotach := 34 }, { t := 0, isotach := 50 }, { t := 21600 }]

/-- A concrete geodesic solver for witnesses. -/
def geodConst : Geodesic :=
  fun _ _ => { az12 := 10, az21 := 45, dist := 1852 }

/-- `VortexTrack.__compute_velocity` as executed (source lines 652-681):
for each record_type, `record_data = data.loc[data['record_type'] ==
record_type]` (line 658) is a boolean-mask selection and hence a pandas
COPY; the speed/direction assignments of lines 678-681 (the
`velocityAssign` broadcast) are made on that copy, which the function then
discards.  The first component is the track's dataframe after the call —
returned unchanged — and the second lists the discarded mutated
per-cluster copies. -/
def computeVelocitySource (geod : Geodesic) (rows : List Row) :
    List Row × List (List Row) :=
  (rows,
    (uniqueFirst (rows.map (fun r => r.record_type))).map
      (fun rt => velocityAssign geod
        (rows.filter (fun x => x.record_type == rt))))

/-- C3: evaluating `__compute_velocity` at a concrete single-cluster,
two-timestamp table: the track's dataframe comes back with its
speed/direction fields untouched (still unset), even though the broadcast
values computed for the discarded cluster copy assign a direction to every
row — the computed velocities are never stored in the table. -/
theorem c3_velocity_not_stored :
    (computeVelocitySource geodConst velRows).1 = velRows ∧
    (computeVelocitySource geodConst velRows).1.map (fun r => r.direction) =
      [none, none, none] ∧
    (velocityAssign geodConst velRows).map (fun r => r.direction) ≠
      (computeVelocitySource geodConst velRows).1.map (fun r => r.direction) := by
  refine ⟨rfl, rfl, ?_⟩
  decide

/-- C4 counterexample: in a two-timestamp cluster the first representative
row comes out of the velocity engine with an UNDEFINED speed (the NaN from
dividing by the leading NaT interval of `.diff()`), not a zero or derived
speed as the claim states. -/
theorem c4_first_speed_counterexample :
    ((velocityAssign geodConst velRows)[0]?).map (fun r => r.speed) =
      some none ∧
    ((velocityAssign geodConst velRows)[0]?).map (fun r => r.direction) =
      some (some (qmod (45 : ℚ) 360)) := by
  constructor
  · rfl
  · rfl

/-- C4 amended: the first representative of every cluster is paired with
itself, and the velocity table built for the cluster gives it an undefined
(missing) speed — no division-by-zero error is raised, and its bearing is
still computed (from the self-pairing back azimuth, reduced modulo 360). -/
theorem c4_first_speed_amended (geod : Geodesic) (cluster : List Row)
    (e : VelEntry) (h : (clusterTable geod cluster).head? = some e) :
    e.speed = none ∧
    ∃ r0 rest, clusterReps cluster = r0 :: rest ∧ e.t = r0.t ∧
      e.bearing = qmod (geod (r0.lon, r0.lat) (r0.lon, r0.lat)).az21 360 := by
  unfold clusterTable at h
  cases hreps : clusterReps cluster with
  | nil => rw [hreps] at h; cases h
  | cons r0 rest =>
    rw [hreps] at h
    simp only [List.head?_cons, Option.some.injEq] at h
    subst h
    exact ⟨rfl, r0, rest, rfl, rfl, rfl⟩

/-- Witness for C4's amended statement: the velocity table of the witness
cluster has a first entry, and it has no speed. -/
theorem c4_first_speed_amended_witness :
    ∃ e, (clusterTable geodConst velRows).head? = some e ∧ e.speed = none := by
  refine ⟨pairEntry geodConst velRows[0] velRows[0] none, rfl, ?_⟩
  exact (c4_first_speed_amended geodConst velRows
    (pairEntry geodConst velRows[0] velRows[0] none) rfl).1

/-- The position-content fingerprint
(`pandas.util.hash_pandas_object(df[['longitude','latitude']]).sum()`),
modelled as the content it fingerprints. -/
def locationFingerprint (rows : List Row) : List (ℚ × ℚ) :=
  rows.map (fun r => (r.lon, r.lat))

/-- The mutable state behind the `dataframe` property: the cached record
table and the fingerprint stored at the last velocity computation. -/
structure TrackState where
  df : List Row
  location_hash : Option (List (ℚ × ℚ))
deriving DecidableEq

/-- The velocity-refresh section of the `dataframe` property read (source
lines 530-537), for an unchanged source configuration: if the stored
fingerprint is absent or differs from the current one, recompute the
velocity in place and store the fingerprint. -/
def dataframeRefresh (geod : Geodesic) (s : TrackState) : TrackState :=
  let h := locationFingerprint s.df
  if s.location_hash = some h then s
  else { df := velocityAssign geod s.df, location_hash := some h }

/-- The velocity engine does not change any position field. -/
theorem velocityAssign_fingerprint (geod : Geodesic) (rows : List Row) :
    locationFingerprint (velocityAssign geod rows) =
      locationFingerprint rows := by
  unfold locationFingerprint velocityAssign
  rw [List.map_map]
  apply List.map_congr_left
  intro r _
  simp only [Function.comp_apply]
  cases (clusterTable geod
      (rows.filter (fun x => x.record_type == r.record_type))).find?
      (fun e => e.t == r.t) with
  | none => rfl
  | some e => rfl

/-- C6: reading the dataframe twice with no position change recomputes
nothing the second time (the second read is the identity), and a read
whose stored fingerprint already matches the table's position content
changes nothing at all. -/
theorem c6_velocity_idempotent (geod : Geodesic) (s : TrackState) :
    dataframeRefresh geod (dataframeRefresh geod s) = dataframeRefresh geod s ∧
    (s.location_hash = some (locationFingerprint s.df) →
      dataframeRefresh geod s = s) := by
  have skip : ∀ s2 : TrackState,
      s2.location_hash = some (locationFingerprint s2.df) →
      dataframeRefresh geod s2 = s2 := by
    intro s2 h2
    unfold dataframeRefresh
    rw [if_pos h2]
  constructor
  · by_cases h : s.location_hash = some (locationFingerprint s.df)
    · rw [skip s h, skip s h]
    · have step : dataframeRefresh geod s =
          { df := velocityAssign geod s.df,
            location_hash := some (locationFingerprint s.df) } := by
        unfold dataframeRefresh
        rw [if_neg h]
      rw [step]
      apply skip
      simp only [velocityAssign_fingerprint]
  · exact skip s

/-- Witness state for C6: the stored fingerprint matches the table. -/
def trackState0 : TrackState :=
  { df := velRows, location_hash := some (locationFingerprint velRows) }

/-- Witness for C6: a read on a state whose fingerprint matches is the
identity. -/
theorem c6_velocity_idempotent_witness :
    dataframeRefresh geodConst trackState0 = trackState0 :=
  (c6_velocity_idempotent geodConst trackState0).2 rfl

/-- The track's error kinds (`ValueError` on date bounds and record types,
`NotImplementedError` on an unknown file deck, the isotach assertion). -/
inductive TrackError where
  | dateRange
  | configuration
  | notImplemented
  | invalidIsotach
deriving DecidableEq

/-- The active filter window (start and end dates are always set after
construction). -/
structure DateWindow where
  s : Int
  e : Int
deriving DecidableEq

/-- The `start_date` setter (source lines 319-333): `None` resets to the
table's first timestamp; otherwise the date must lie within the table's
first/last timestamps.  It performs NO comparison against the end date. -/
def setStartDate (df : List Row) (w : DateWindow) (v : Option Int) :
    Except TrackError DateWindow :=
  match df.head?, df.getLast? with
  | some first, some last =>
    match v with
    | none => .ok { w with s := first.t }
    | some d =>
      if d < first.t ∨ last.t < d then .error .dateRange
      else .ok { w with s := d }
  | _, _ => .error .dateRange

/-- The `end_date` setter (source lines 339-355): `None` resets to the
table's last timestamp; otherwise the date must lie within the table
bounds and be strictly after the current start date. -/
def setEndDate (df : List Row) (w : DateWindow) (v : Option Int) :
    Except TrackError DateWindow :=
  match df.head?, df.getLast? with
  | some first, some last =>
    match v with
    | none => .ok { w with e := last.t }
    | some d =>
      if d < first.t ∨ last.t < d then .error .dateRange
      else if d ≤ w.s then .error .dateRange
      else .ok { w with e := d }
  | _, _ => .error .dateRange

/-- Three-timestamp table for the date-setter counterexample. -/
def dateRows : List Row :=
  [{ t := 0 }, { t := 10 }, { t := 20 }]

/-- C7 counterexample: with the window `[0, 20]`, assigning `start_date :=
20` (equal to — hence not before — the current end date) SUCCEEDS: the
start-date setter validates only the table bounds, so the claimed
symmetric cross-validation does not happen. -/
theorem c7_start_date_counterexample :
    setStartDate dateRows { s := 0, e := 20 } (some 20) =
      .ok { s := 20, e := 20 } ∧
    (20 : Int) ≤ ({ s := 0, e := 20 } : DateWindow).e := by
  constructor
  · rfl
  · decide

/-- C7 amended: both setters validate the assigned date against the
unfiltered table's first/last timestamps and reset to them on `None`; the
ordering check (`end ≤ start` fails, equality included) is enforced only
by the end-date setter, while an in-bounds start date is always accepted
regardless of the current end date. -/
theorem c7_date_setters_amended (df : List Row) (first last : Row)
    (w : DateWindow) (d : Int)
    (hf : df.head? = some first) (hl : df.getLast? = some last) :
    setStartDate df w none = .ok { w with s := first.t } ∧
    setEndDate df w none = .ok { w with e := last.t } ∧
    ((d < first.t ∨ last.t < d) →
      setStartDate df w (some d) = .error .dateRange) ∧
    ((d < first.t ∨ last.t < d) →
      setEndDate df w (some d) = .error .dateRange) ∧
    (first.t ≤ d → d ≤ last.t →
      setStartDate df w (some d) = .ok { w with s := d }) ∧
    (first.t ≤ d → d ≤ last.t → d ≤ w.s →
      setEndDate df w (some d) = .error .dateRange) ∧
    (first.t ≤ d → d ≤ last.t → w.s < d →
      setEndDate df w (some d) = .ok { w with e := d }) := by
  unfold setStartDate setEndDate
  rw [hf, hl]
  dsimp only
  refine ⟨rfl, rfl, ?_, ?_, ?_, ?_, ?_⟩
  · intro h
    rw [if_pos h]
  · intro h
    rw [if_pos h]
  · intro h1 h2
    rw [if_neg (by omega)]
  · intro h1 h2 h3
    rw [if_neg (by omega), if_pos h3]
  · intro h1 h2 h3
    rw [if_neg (by omega), if_neg (by omega)]

/-- Witness for C7's amended statement, on the three-timestamp table with
window `[0, 20]` and assigned date 10. -/
theorem c7_date_setters_amended_witness :
    setStartDate dateRows { s := 0, e := 20 } none =
      .ok { s := 0, e := 20 } ∧
    setEndDate dateRows { s := 0, e := 20 } (some 10) =
      .ok { s := 0, e := 10 } := by
  have h := c7_date_setters_amended dateRows { t := 0 } { t := 20 }
    { s := 0, e := 20 } 10 rfl rfl
  exact ⟨h.1, (h.2.2.2.2.2.2) (by decide) (by decide) (by decide)⟩

/-- Python `str.upper()` restricted to the record-type tags in play. -/
def upperTag (s : String) : String :=
  String.mk (s.data.map Char.toUpper)

/-- The ATCF file decks (source granularities).  Modelled from the spec:
the enum itself lives in the external ATCF module; decks beyond `a` and
`b` are the unimplemented granularities of the `record_type` setter's
fallthrough branch. -/
inductive FileDeck where
  | a
  | b
  | c
deriving DecidableEq

/-- The record types allowed for each file deck (`record_type` setter,
source lines 441-460). -/
def allowedRecordTypes : FileDeck → Except TrackError (List String)
  | .a => .ok ["OFCL", "OFCP", "HWRF", "HMON", "CARQ"]
  | .b => .ok ["BEST"]
  | .c => .error .notImplemented

/-- The `record_type` setter: `None` is accepted; otherwise the tag is
upper-cased and must belong to the allowed set of the active deck. -/
def setRecordType (fd : FileDeck) (v : Option String) :
    Except TrackError (Option String) :=
  match v with
  | none => .ok none
  | some rt0 =>
    match allowedRecordTypes fd with
    | .error err => .error err
    | .ok allowed =>
      if upperTag rt0 ∈ allowed then .ok (some (upperTag rt0))
      else .error .configuration

/-- Modelled from the spec: `read_atcf` of the external ATCF decoder (not
under `src/`) returns the decoded record table, keeping only rows whose
record type is in the allowed list when one is given. -/
def read_atcf (raw : List Row) (allowed : Option (List String)) : List Row :=
  match allowed with
  | none => raw
  | some a => raw.filter (fun r => decide (r.record_type ∈ a))

/-- The allowed-record-types argument of the `dataframe` fetch (source
lines 513-523): an explicit file with no record type reads everything;
otherwise the selected record type, or BEST/OFCL by default. -/
def fetchAllowed (record_type : Option String) (explicitFile : Bool) :
    Option (List String) :=
  match record_type with
  | some rt => some [rt]
  | none => if explicitFile then none else some ["BEST", "OFCL"]

/-- The record table produced by the `dataframe` fetch for the given
record-type selection. -/
def fetchDataframe (raw : List Row) (record_type : Option String)
    (explicitFile : Bool) : List Row :=
  read_atcf raw (fetchAllowed record_type explicitFile)

/-- C8: assigning "hwrf" fails with a configuration error on a b-deck
track but succeeds (upper-cased) on an a-deck track, after which the
fetched table holds only HWRF rows; an unimplemented deck fails; and any
accepted record type is in the deck's allowed set (no silent fallback). -/
theorem c8_record_type_validation :
    setRecordType .b (some "hwrf") = .error .configuration ∧
    setRecordType .a (some "hwrf") = .ok (some "HWRF") ∧
    (∀ (raw : List Row) (ef : Bool) (r : Row),
      r ∈ fetchDataframe raw (some "HWRF") ef → r.record_type = "HWRF") ∧
    (∀ rt : String, setRecordType .c (some rt) = .error .notImplemented) ∧
    (∀ (fd : FileDeck) (rt : String) (v : Option String),
      setRecordType fd (some rt) = .ok v →
      ∃ allowed, allowedRecordTypes fd = .ok allowed ∧
        v = some (upperTag rt) ∧ upperTag rt ∈ allowed) := by
  refine ⟨rfl, rfl, ?_, ?_, ?_⟩
  · intro raw ef r hr
    unfold fetchDataframe fetchAllowed read_atcf at hr
    simp only at hr
    have := (List.mem_filter.mp hr).2
    simpa using this
  · intro rt
    rfl
  · intro fd rt v hv
    unfold setRecordType at hv
    cases fd with
    | a =>
      simp only [allowedRecordTypes] at hv
      by_cases hmem : upperTag rt ∈ ["OFCL", "OFCP", "HWRF", "HMON", "CARQ"]
      · rw [if_pos hmem] at hv
        cases hv
        exact ⟨_, rfl, rfl, hmem⟩
      · rw [if_neg hmem] at hv
        cases hv
    | b =>
      simp only [allowedRecordTypes] at hv
      by_cases hmem : upperTag rt ∈ ["BEST"]
      · rw [if_pos hmem] at hv
        cases hv
        exact ⟨_, rfl, rfl, hmem⟩
      · rw [if_neg hmem] at hv
        cases hv
    | c => exact Except.noConfusion hv

/-- A raw provider table containing both HWRF and BEST rows. -/
def rawRows : List Row :=
  [{ t := 0, record_type := "HWRF" }, { t := 0 }]

/-- Witness for C8: the HWRF row of the mixed provider table survives the
HWRF-restricted fetch, and its record type is HWRF. -/
theorem c8_record_type_validation_witness :
    ({ t := 0, record_type := "HWRF" } : Row).record_type = "HWRF" :=
  c8_record_type_validation.2.2.1 rawRows false
    { t := 0, record_type := "HWRF" }
    (List.mem_filter.mpr ⟨List.mem_cons_self _ _, by decide⟩)

/-- Geometry terms: `union` is `shapely.ops.unary_union` (the union of no
geometries being the empty geometry), `convexHull` the `.convex_hull`
accessor, and `ringFor` abstracts the quadrant-arc polygon the isotach
engine builds from one row. -/
inductive Geom where
  | union : List Geom → Geom
  | convexHull : Geom → Geom
  | ringFor : Row → Geom

/-- `VortexTrack.isotachs`: one ring polygon per row of the current view
whose isotach threshold equals the requested wind speed, in table order. -/
def isotachs (rows : List Row) (windSpeed : Int) : List Geom :=
  (rows.filter (fun r => r.isotach == windSpeed)).map Geom.ringFor

/-- `VortexTrack.wind_swath` (source lines 600-624): the isotach value must
be 34, 50 or 64 (the source asserts this); the convex hull of each pair of
temporally adjacent rings is formed and the hulls are unioned. -/
def wind_swath (rows : List Row) (isotach : Int) : Except TrackError Geom :=
  if isotach ∈ ([34, 50, 64] : List Int) then
    let rings := isotachs rows isotach
    let hulls := (rings.zip rings.tail).map
      (fun p => Geom.convexHull (Geom.union [p.1, p.2]))
    .ok (Geom.union hulls)
  else .error .invalidIsotach

/-- C9: `wind_swath` fails with the invalid-isotach error for every value
outside {34, 50, 64} and returns a geometry for every value inside; and
when the filtered view yields fewer than two qualifying rings the returned
swath is the empty geometry (a union of nothing). -/
theorem c9_wind_swath_validation (rows : List Row) (iso : Int) :
    (iso ∉ ([34, 50, 64] : List Int) →
      wind_swath rows iso = .error .invalidIsotach) ∧
    (iso ∈ ([34, 50, 64] : List Int) →
      (∃ g, wind_swath rows iso = .ok g) ∧
      ((rows.filter (fun r => r.isotach == iso)).length < 2 →
        wind_swath rows iso = .ok (Geom.union []))) := by
  constructor
  · intro h
    unfold wind_swath
    rw [if_neg h]
  · intro h
    constructor
    · exact ⟨_, by unfold wind_swath; rw [if_pos h]⟩
    · intro hlen
      unfold wind_swath
      rw [if_pos h]
      have hrl : (isotachs rows iso).length < 2 := by
        unfold isotachs
        rw [List.length_map]
        exact hlen
      cases hr : isotachs rows iso with
      | nil => rfl
      | cons g rest =>
        cases rest with
        | nil => rfl
        | cons g2 rest2 =>
          rw [hr] at hrl
          simp only [List.length_cons] at hrl
          omega

/-- Witness for C9: on a single-ring table, 33 kt is rejected and 34 kt
yields the empty swath. -/
theorem c9_wind_swath_validation_witness :
    wind_swath [{ t := 0, isotach := 34 }] 33 = .error .invalidIsotach ∧
    wind_swath [{ t := 0, isotach := 34 }] 34 = .ok (Geom.union []) :=
  ⟨(c9_wind_swath_validation [{ t := 0, isotach := 34 }] 33).1 (by decide),
   ((c9_wind_swath_validation [{ t := 0, isotach := 34 }] 34).2
     (by decide)).2 (by decide)⟩

/-- `VortexTrack.write` (source lines 256-263): the filesystem is a map
from paths to contents; the result pairs the new filesystem with whether
the file was written (`false` means the skipped-with-warning branch). -/
def writeTrack (fs : String → Option String) (path content : String)
    (overwrite : Bool) : (String → Option String) × Bool :=
  if overwrite || (fs path).isNone then
    ((fun p => if p = path then some content else fs p), true)
  else (fs, false)

/-- C10: writing over an existing destination without overwrite leaves the
whole filesystem untouched and reports a skip; the file is written exactly
when overwrite is set or the destination does not exist. -/
theorem c10_write_idempotent (fs : String → Option String)
    (path content old : String) (h : fs path = some old) :
    writeTrack fs path content false = (fs, false) ∧
    writeTrack fs path content true =
      ((fun p => if p = path then some content else fs p), true) ∧
    (∀ fs2 : String → Option String, fs2 path = none →
      writeTrack fs2 path content false =
        ((fun p => if p = path then some content else fs2 p), true)) ∧
    (∀ (fs3 : String → Option String) (o : Bool),
      (writeTrack fs3 path content o).2 = true →
      o = true ∨ fs3 path = none) := by
  refine ⟨?_, ?_, ?_, ?_⟩
  · unfold writeTrack
    rw [if_neg (by simp [h])]
  · unfold writeTrack
    rw [if_pos (by simp)]
  · intro fs2 h2
    unfold writeTrack
    rw [if_pos (by simp [h2])]
  · intro fs3 o hw
    unfold writeTrack at hw
    by_cases hc : o || (fs3 path).isNone
    · rcases Bool.or_eq_true_iff.mp hc with hc | hc
      · exact Or.inl hc
      · exact Or.inr (Option.isNone_iff_eq_none.mp hc)
    · rw [if_neg hc] at hw
      simp at hw

/-- A one-file filesystem for the C10 witness. -/
def fsOne : String → Option String :=
  fun p => if p = "fort.22" then some "old" else none

/-- Witness for C10: with "fort.22" present, a non-overwrite write is a
no-op and an overwrite write replaces the file. -/
theorem c10_write_idempotent_witness :
    writeTrack fsOne "fort.22" "new" false = (fsOne, false) ∧
    writeTrack fsOne "fort.22" "new" true =
      ((fun p => if p = "fort.22" then some "new" else fsOne p), true) := by
  have h := c10_write_idempotent fsOne "fort.22" "new" "old" (by decide)
  exact ⟨h.1, h.2.1⟩

/-- Witness for C1: on the three-timestamp table with window `[0, 5]`, the
end date snaps forward to a table timestamp. -/
theorem c1_data_window_snap_witness :
    ∃ snap, fileEndDate dateRows 5 = some snap ∧
      snap ∈ tableDates dateRows ∧ (5 : Int) ≤ snap ∧
      (∀ t ∈ tableDates dateRows, (5 : Int) ≤ t → snap ≤ t) ∧
      dataView dateRows 0 5 =
        some (dateRows.filter
          (fun r => decide ((0 : Int) ≤ r.t) && decide (r.t ≤ snap))) ∧
      ∀ r, r ∈ dateRows.filter
          (fun r => decide ((0 : Int) ≤ r.t) && decide (r.t ≤ snap)) ↔
        r ∈ dateRows ∧ (0 : Int) ≤ r.t ∧ r.t ≤ snap :=
  c1_data_window_snap dateRows 0 5
    ⟨{ t := 10 }, List.mem_cons_of_mem _ (List.mem_cons_self _ _), by decide⟩
